import Mathlib

/-!
Verification of the authorization resolution engine of a multi-tenant
back-office platform (FastAPI/SQLAlchemy backend).

The Python source is shallowly embedded: the relational fact store
(users, roles, permissions, departments and the three association
tables) becomes lists of records, SQL queries become list
comprehensions, the Redis permission cache becomes an explicit record
of key-value maps, and recursive walkers are given explicit fuel.
Identifiers (stored as strings / snowflake ids in the database) are
modelled as natural numbers; `data_scope` (a SmallInteger column
holding the `DataScope` IntEnum values 1..5) is modelled by a five
constructor inductive carrying its numeric value.

Definitions named after source symbols (`getUserPermissionsDb`,
`getUserDataScopeDb`, `applyDataScopeFilter`, `checkCircularReference`,
`buildMenuTree`, `buildPermissionTree`, `getSubDepartmentsFuel`,
`updateUserRoles`, `updatePermissionParent`, `updateDepartmentParent`)
are translated from `app/core/permissions.py`, `app/utils/cache.py`,
`app/services/{menu,permission,department,user}_service.py`.
Definitions prefixed `spec` follow the natural-language specification's
wording and are compared against the source-derived definitions.
-/

/-- `DataScope` IntEnum from `app/core/permissions.py`:
ALL=1, DEPT=2, DEPT_AND_SUB=3, SELF=4, CUSTOM=5. -/
inductive DataScope where
  | all
  | dept
  | deptAndSub
  | self
  | custom
deriving DecidableEq, Repr

/-- The integer value stored in the `roles.data_scope` column. -/
def DataScope.toNat : DataScope → Nat
  | .all => 1
  | .dept => 2
  | .deptAndSub => 3
  | .self => 4
  | .custom => 5

/-- Row of the `roles` table (fields used by the engine). -/
structure Role where
  id : Nat
  code : String
  status : Nat
  is_deleted : Bool
  data_scope : DataScope
deriving DecidableEq, Repr

/-- Row of the `permissions` table. `ptype` embeds the `type` column
(1 = group node, 2 = action permission); `parent_id` is the
self-reference (`none`/`0` = root). -/
structure Permission where
  id : Nat
  code : String
  status : Nat
  is_deleted : Bool
  ptype : Nat
  parent_id : Option Nat
deriving DecidableEq, Repr

/-- Row of the `user_roles` association table. -/
structure UserRole where
  user_id : Nat
  role_id : Nat
deriving DecidableEq, Repr

/-- Row of the `role_permissions` association table. -/
structure RolePermission where
  role_id : Nat
  permission_id : Nat
deriving DecidableEq, Repr

/-- Row of the `role_departments` association table (CUSTOM-scope grants). -/
structure RoleDepartment where
  role_id : Nat
  department_id : Nat
deriving DecidableEq, Repr

/-- Row of the `departments` table (fields used by the engine). -/
structure Department where
  id : Nat
  parent_id : Option Nat
  is_deleted : Bool
deriving DecidableEq, Repr

/-- Row of the `menus` table (fields used by the tree builder and the
cycle validator). -/
structure Menu where
  id : Nat
  parent_id : Option Nat
  is_deleted : Bool
deriving DecidableEq, Repr

/-- The authenticated principal (fields of `User` read by the engine). -/
structure UserRec where
  id : Nat
  user_type : Nat
  dept_id : Nat
deriving DecidableEq, Repr

/-- The persistent relational state read by the resolvers. -/
structure FactStore where
  roles : List Role
  permissions : List Permission
  userRoles : List UserRole
  rolePermissions : List RolePermission
  roleDepartments : List RoleDepartment
  departments : List Department
deriving Repr

/-! ### Permission resolver, store-backed path
(`get_user_permissions` in `app/core/permissions.py`, cache-miss branch) -/

/-- `select UserRole.role_id where UserRole.user_id == user.id`.
Note: no join against `Role`, hence no filter on role status or
soft-deletion. -/
def userRoleIds (db : FactStore) (userId : Nat) : List Nat :=
  (db.userRoles.filter (fun ur => ur.user_id == userId)).map UserRole.role_id

/-- The row list of the SQL join `Permission ⋈ RolePermission`
filtered by `role_id ∈ role_ids`, `Permission.status == 1`,
`not is_deleted`, `type == 2`; the guard of the Python set
comprehension `{row[0] for row in ... if row[0]}` drops falsy (empty)
codes. -/
def getUserPermissionsRows (db : FactStore) (userId : Nat) : List String :=
  let role_ids := userRoleIds db userId
  (((db.rolePermissions.filter (fun rp => role_ids.contains rp.role_id)).flatMap
      (fun rp => (db.permissions.filter (fun p =>
        p.id == rp.permission_id && p.status == 1 && p.is_deleted == false &&
        p.ptype == 2)).map Permission.code)).filter
    (fun c => c != ""))

/-- Store-backed permission resolution (`get_user_permissions`,
cache-miss branch): `set()` when the user has no `UserRole` rows,
otherwise the set of the joined rows. -/
def getUserPermissionsDb (db : FactStore) (userId : Nat) : Finset String :=
  if (userRoleIds db userId).isEmpty then ∅
  else (getUserPermissionsRows db userId).toFinset

/-- A role is active iff `status = 1` (enabled) and not soft-deleted
(spec §3: "A role is active iff status = enabled and not soft-deleted"). -/
def roleActive (r : Role) : Bool :=
  r.status == 1 && !r.is_deleted

/-- The user's active roles (spec wording). -/
def userActiveRoles (db : FactStore) (userId : Nat) : List Role :=
  db.roles.filter (fun r =>
    roleActive r && db.userRoles.any (fun ur => ur.user_id == userId && ur.role_id == r.id))

/-- Effective permission set as worded by the spec: union over the
user's active roles of enabled, non-deleted ACTION-type permission
codes. -/
def specEffectivePermissions (db : FactStore) (userId : Nat) : Finset String :=
  (((db.rolePermissions.filter (fun rp =>
      (userActiveRoles db userId).any (fun r => r.id == rp.role_id))).flatMap
    (fun rp => (db.permissions.filter (fun p =>
      p.id == rp.permission_id && p.status == 1 && p.is_deleted == false &&
      p.ptype == 2)).map Permission.code)).filter (fun c => c != "")).toFinset

/-! ### Role resolver, store-backed path (`get_user_roles`) -/

/-- Row list of `select Role.code` joined with `UserRole`, filtered by
`Role.status == 1` and `not Role.is_deleted`; the set-comprehension
guard drops falsy codes. -/
def getUserRolesRows (db : FactStore) (userId : Nat) : List String :=
  (((db.userRoles.filter (fun ur => ur.user_id == userId)).flatMap
      (fun ur => (db.roles.filter (fun r => r.id == ur.role_id && roleActive r)).map
        Role.code)).filter (fun c => c != ""))

/-- Store-backed role-code resolution (`get_user_roles`, cache-miss
branch). -/
def getUserRolesDb (db : FactStore) (userId : Nat) : Finset String :=
  (getUserRolesRows db userId).toFinset

/-! ### Data-scope resolver, store-backed path (`get_user_data_scope`) -/

/-- The `Role.data_scope ⋈ UserRole` join of `get_user_data_scope`:
one scope value per (assignment, active role) pair. -/
def userScopeJoin (db : FactStore) (userId : Nat) : List Nat :=
  (db.userRoles.filter (fun ur => ur.user_id == userId)).flatMap
    (fun ur => (db.roles.filter (fun r => r.id == ur.role_id && roleActive r)).map
      (fun r => r.data_scope.toNat))

/-- Store-backed scope resolution: `DataScope(min(data_scopes))`, or
`DataScope.SELF` (= 4) when the join is empty. -/
def getUserDataScopeDb (db : FactStore) (userId : Nat) : Nat :=
  (userScopeJoin db userId).minimum.untop' 4

/-- Effective data scope as worded by the spec: the numerically
smallest `data_scope` value among the user's active roles, SELF (4)
when the user has zero active roles. -/
def specEffectiveScope (db : FactStore) (userId : Nat) : Nat :=
  (((userActiveRoles db userId).map (fun r => r.data_scope.toNat)).minimum).untop' 4

/-! ### C3: store-backed scope resolution matches the spec's wording -/

theorem minimum_congr_of_mem_iff {l l' : List Nat} (h : ∀ a, a ∈ l ↔ a ∈ l') :
    l.minimum = l'.minimum :=
  le_antisymm
    (List.le_minimum_of_forall_le fun a ha =>
      List.minimum_le_of_mem' ((h a).mpr ha))
    (List.le_minimum_of_forall_le fun a ha =>
      List.minimum_le_of_mem' ((h a).mp ha))

theorem mem_userScopeJoin (db : FactStore) (uid a : Nat) :
    a ∈ userScopeJoin db uid ↔
      ∃ r ∈ db.roles, roleActive r = true ∧
        (∃ ur ∈ db.userRoles, ur.user_id = uid ∧ ur.role_id = r.id) ∧
        a = r.data_scope.toNat := by
  simp only [userScopeJoin, List.mem_flatMap, List.mem_filter, List.mem_map,
    Bool.and_eq_true, beq_iff_eq]
  constructor
  · rintro ⟨ur, ⟨hur, hu⟩, r, ⟨hr, hrid, hact⟩, ha⟩
    exact ⟨r, hr, hact, ⟨ur, hur, hu, hrid.symm⟩, ha.symm⟩
  · rintro ⟨r, hr, hact, ⟨ur, hur, hu, hrid⟩, ha⟩
    exact ⟨ur, ⟨hur, hu⟩, r, ⟨hr, hrid.symm, hact⟩, ha.symm⟩

theorem mem_activeScopes (db : FactStore) (uid a : Nat) :
    a ∈ (userActiveRoles db uid).map (fun r => r.data_scope.toNat) ↔
      ∃ r ∈ db.roles, roleActive r = true ∧
        (∃ ur ∈ db.userRoles, ur.user_id = uid ∧ ur.role_id = r.id) ∧
        a = r.data_scope.toNat := by
  simp only [userActiveRoles, List.mem_map, List.mem_filter, Bool.and_eq_true,
    List.any_eq_true, beq_iff_eq]
  constructor
  · rintro ⟨r, ⟨hr, hact, ur, hur, hu, hrid⟩, ha⟩
    exact ⟨r, hr, hact, ⟨ur, hur, hu, hrid⟩, ha.symm⟩
  · rintro ⟨r, hr, hact, ⟨ur, hur, hu, hrid⟩, ha⟩
    exact ⟨r, ⟨hr, hact, ur, hur, hu, hrid⟩, ha.symm⟩

/-- A user assigned two active roles with scopes DEPT (2) and ALL (1). -/
def dbDeptAll : FactStore :=
  ⟨[⟨10, "a", 1, false, .dept⟩, ⟨11, "b", 1, false, .all⟩], [],
   [⟨1, 10⟩, ⟨1, 11⟩], [], [], []⟩

/-- A store in which user 1 has no role assignments at all. -/
def dbNoRoles : FactStore := ⟨[], [], [], [], [], []⟩

/-- C3: for every user, the store-backed data-scope resolution
(`get_user_data_scope`) returns the numerically smallest `data_scope`
among the user's active roles, and SELF (4) when the user has zero
active roles; in particular a user holding DEPT and ALL roles resolves
to ALL (1), and a user with no roles resolves to SELF (4). -/
theorem c3_effective_scope_is_min_of_active_roles :
    (∀ (db : FactStore) (uid : Nat),
      getUserDataScopeDb db uid = specEffectiveScope db uid) ∧
    getUserDataScopeDb dbDeptAll 1 = 1 ∧
    getUserDataScopeDb dbNoRoles 1 = 4 := by
  refine ⟨?_, by decide, by decide⟩
  intro db uid
  unfold getUserDataScopeDb specEffectiveScope
  exact congrArg (WithTop.untop' 4)
    (minimum_congr_of_mem_iff (fun a => by
      rw [mem_userScopeJoin, mem_activeScopes]))

/-! ### C2: the permission resolver does not filter out inactive roles -/

/-- User 1 is assigned role 10, which is *disabled* (`status = 0`) and
carries the enabled ACTION permission `user:delete`. -/
def dbDisabledRole : FactStore :=
  ⟨[⟨10, "ops", 0, false, .self⟩],
   [⟨100, "user:delete", 1, false, 2, none⟩],
   [⟨1, 10⟩], [⟨10, 100⟩], [], []⟩

/-- C2 (code bug): `get_user_permissions` selects the user's role ids
from `UserRole` without joining `Role`, so a disabled (or soft-deleted)
role still contributes its ACTION permission codes, while the spec's
effective-permission set over active roles is empty. -/
theorem c2_disabled_role_still_contributes :
    getUserPermissionsDb dbDisabledRole 1 = {"user:delete"} ∧
    specEffectivePermissions dbDisabledRole 1 = ∅ ∧
    dbDisabledRole.roles.all (fun r => !roleActive r) = true := by
  refine ⟨by decide, by decide, by decide⟩

/-! ### Authorization cache (`PermissionCache` in `app/utils/cache.py`)

The Redis key space `user:permissions:{id}` / `user:roles:{id}` /
`user:data_scope:{id}` is modelled as three maps from user id to an
optional stored value. Permission and role sets are stored as the JSON
list `json.dumps(list(s))` (modelled by the list of elements, chosen
canonically in sorted order since `list(set)` fixes no order) and read
back by `set(json.loads(v))`; the data scope is stored as the decimal
string `str(v)` and read back by `int(v)` (parse failure is swallowed
and treated as a cache miss). -/

/-- `json.dumps(list(s))` for the set of code strings built from the
query rows: `list(set)` enumerates each distinct element once, in an
unspecified order, modelled by the order-preserving deduplication of
the row list. -/
def serializeCodes (rows : List String) : List String :=
  rows.dedup

/-- `set(json.loads(v))`. -/
def deserializeCodes (l : List String) : Finset String :=
  l.toFinset

/-- `str(data_scope)`. -/
def serializeScope (n : Nat) : String :=
  Nat.repr n

/-- `int(cached_data)` on the decimal digits of the cached string;
any non-numeric content raises and is treated as a miss. -/
def parseDecimal (s : String) : Option Nat :=
  let cs := s.data
  if cs.isEmpty then none
  else if cs.all Char.isDigit then
    some (cs.foldl (fun n c => n * 10 + (c.toNat - Char.toNat '0')) 0)
  else none

/-- The shared permission cache: one entry per user id and kind. -/
structure Cache where
  perms : Nat → Option (List String)
  roleCodes : Nat → Option (List String)
  scope : Nat → Option String

/-- The empty cache (no key set). -/
def emptyCache : Cache := ⟨fun _ => none, fun _ => none, fun _ => none⟩

/-- `get_user_permissions` (cache-aside): on hit return the cached set;
on miss compute from the store and write through. `cacheUp = false` is
the cache-unreachable / entry-expired path, which degrades to the
store-backed query without writing. -/
def getUserPermissionsAt (cacheUp : Bool) (st : Cache) (db : FactStore) (uid : Nat) :
    Finset String × Cache :=
  if cacheUp then
    match st.perms uid with
    | some l => (deserializeCodes l, st)
    | none =>
      (getUserPermissionsDb db uid,
       { st with perms := fun j =>
          if j == uid then some (serializeCodes (getUserPermissionsRows db uid))
          else st.perms j })
  else (getUserPermissionsDb db uid, st)

/-- `get_user_roles` (cache-aside), same shape as the permission path. -/
def getUserRolesAt (cacheUp : Bool) (st : Cache) (db : FactStore) (uid : Nat) :
    Finset String × Cache :=
  if cacheUp then
    match st.roleCodes uid with
    | some l => (deserializeCodes l, st)
    | none =>
      (getUserRolesDb db uid,
       { st with roleCodes := fun j =>
          if j == uid then some (serializeCodes (getUserRolesRows db uid))
          else st.roleCodes j })
  else (getUserRolesDb db uid, st)

/-- `get_user_data_scope` (cache-aside). A stored value that fails
`int()` is swallowed (logged) and treated as a miss. -/
def getUserDataScopeAt (cacheUp : Bool) (st : Cache) (db : FactStore) (uid : Nat) :
    Nat × Cache :=
  if cacheUp then
    match (st.scope uid).bind parseDecimal with
    | some n => (n, st)
    | none =>
      let v := getUserDataScopeDb db uid
      (v, { st with scope := fun j => if j == uid then some (serializeScope v) else st.scope j })
  else (getUserDataScopeDb db uid, st)

/-- One full resolution round for a user: permissions, then role
codes, then data scope, threading the cache state. -/
def resolveAll (cacheUp : Bool) (st : Cache) (db : FactStore) (uid : Nat) :
    (Finset String × Finset String × Nat) × Cache :=
  let pr := getUserPermissionsAt cacheUp st db uid
  let rr := getUserRolesAt cacheUp pr.2 db uid
  let sr := getUserDataScopeAt cacheUp rr.2 db uid
  ((pr.1, rr.1, sr.1), sr.2)

/-- Every entry present in the cache deserializes to exactly the value
the store-backed computation returns (spec §3: "cache values are always
derivable from the Fact Store"). -/
def cacheConsistent (st : Cache) (db : FactStore) : Prop :=
  (∀ uid l, st.perms uid = some l → deserializeCodes l = getUserPermissionsDb db uid) ∧
  (∀ uid l, st.roleCodes uid = some l → deserializeCodes l = getUserRolesDb db uid) ∧
  (∀ uid s, st.scope uid = some s → parseDecimal s = some (getUserDataScopeDb db uid))

theorem deserializeCodes_serializeCodes (rows : List String) :
    deserializeCodes (serializeCodes rows) = rows.toFinset := by
  ext a
  simp [deserializeCodes, serializeCodes, List.mem_dedup]

theorem getUserPermissionsDb_eq_rows (db : FactStore) (uid : Nat) :
    getUserPermissionsDb db uid = (getUserPermissionsRows db uid).toFinset := by
  unfold getUserPermissionsDb getUserPermissionsRows
  by_cases h : (userRoleIds db uid).isEmpty
  · have hnil : userRoleIds db uid = [] := by simpa using h
    simp [h, hnil]
  · simp [h]

theorem parseDecimal_serializeScope_of_lt : ∀ n < 10, parseDecimal (serializeScope n) = some n := by
  decide

theorem DataScope.toNat_le (d : DataScope) : d.toNat ≤ 5 := by
  cases d <;> simp [DataScope.toNat]

theorem getUserDataScopeDb_lt_ten (db : FactStore) (uid : Nat) :
    getUserDataScopeDb db uid < 10 := by
  unfold getUserDataScopeDb
  rcases hx : (userScopeJoin db uid).minimum with _ | m
  · decide
  · have hm : m ∈ userScopeJoin db uid := List.minimum_mem hx
    obtain ⟨r, -, -, -, ha⟩ := (mem_userScopeJoin db uid m).mp hm
    have hle := DataScope.toNat_le r.data_scope
    have h4 : WithTop.untop' 4 (some m) = m := rfl
    rw [h4, ha]
    omega

theorem getUserPermissionsAt_fst (b : Bool) (st : Cache) (db : FactStore) (uid : Nat)
    (h : cacheConsistent st db) :
    (getUserPermissionsAt b st db uid).1 = getUserPermissionsDb db uid := by
  unfold getUserPermissionsAt
  cases b with
  | false => simp
  | true =>
    cases hc : st.perms uid with
    | none => simp [hc]
    | some l => simpa [hc] using h.1 uid l hc

theorem getUserPermissionsAt_snd (b : Bool) (st : Cache) (db : FactStore) (uid : Nat)
    (h : cacheConsistent st db) :
    cacheConsistent (getUserPermissionsAt b st db uid).2 db := by
  unfold getUserPermissionsAt
  cases b with
  | false => simpa using h
  | true =>
    cases hc : st.perms uid with
    | some l => simpa [hc] using h
    | none =>
      simp only [hc, if_true]
      refine ⟨?_, h.2.1, h.2.2⟩
      intro uid' l hl
      by_cases he : uid' = uid
      · subst he
        simp only [beq_self_eq_true, if_true, Option.some.injEq] at hl
        rw [← hl, deserializeCodes_serializeCodes, ← getUserPermissionsDb_eq_rows]
      · simp only [beq_eq_false_iff_ne, ne_eq, he, not_false_eq_true, if_neg,
          beq_iff_eq] at hl
        exact h.1 uid' l hl

theorem getUserRolesAt_fst (b : Bool) (st : Cache) (db : FactStore) (uid : Nat)
    (h : cacheConsistent st db) :
    (getUserRolesAt b st db uid).1 = getUserRolesDb db uid := by
  unfold getUserRolesAt
  cases b with
  | false => simp
  | true =>
    cases hc : st.roleCodes uid with
    | none => simp [hc]
    | some l => simpa [hc] using h.2.1 uid l hc

theorem getUserRolesAt_snd (b : Bool) (st : Cache) (db : FactStore) (uid : Nat)
    (h : cacheConsistent st db) :
    cacheConsistent (getUserRolesAt b st db uid).2 db := by
  unfold getUserRolesAt
  cases b with
  | false => simpa using h
  | true =>
    cases hc : st.roleCodes uid with
    | some l => simpa [hc] using h
    | none =>
      simp only [hc, if_true]
      refine ⟨h.1, ?_, h.2.2⟩
      intro uid' l hl
      by_cases he : uid' = uid
      · subst he
        simp only [beq_self_eq_true, if_true, Option.some.injEq] at hl
        rw [← hl, deserializeCodes_serializeCodes]
        rfl
      · simp only [beq_eq_false_iff_ne, ne_eq, he, not_false_eq_true, if_neg,
          beq_iff_eq] at hl
        exact h.2.1 uid' l hl

theorem getUserDataScopeAt_fst (b : Bool) (st : Cache) (db : FactStore) (uid : Nat)
    (h : cacheConsistent st db) :
    (getUserDataScopeAt b st db uid).1 = getUserDataScopeDb db uid := by
  unfold getUserDataScopeAt
  cases b with
  | false => simp
  | true =>
    cases hc : st.scope uid with
    | none => simp [hc]
    | some s => simp [hc, h.2.2 uid s hc]

theorem getUserDataScopeAt_snd (b : Bool) (st : Cache) (db : FactStore) (uid : Nat)
    (h : cacheConsistent st db) :
    cacheConsistent (getUserDataScopeAt b st db uid).2 db := by
  unfold getUserDataScopeAt
  cases b with
  | false => simpa using h
  | true =>
    cases hval : (st.scope uid).bind parseDecimal with
    | some n => simpa [hval] using h
    | none =>
      simp only [hval, if_true]
      refine ⟨h.1, h.2.1, ?_⟩
      intro uid' s hl
      by_cases he : uid' = uid
      · subst he
        simp only [beq_self_eq_true, if_true, Option.some.injEq] at hl
        rw [← hl]
        exact parseDecimal_serializeScope_of_lt _ (getUserDataScopeDb_lt_ten db uid')
      · simp only [beq_eq_false_iff_ne, ne_eq, he, not_false_eq_true, if_neg,
          beq_iff_eq] at hl
        exact h.2.2 uid' s hl

theorem resolveAll_fst (b : Bool) (st : Cache) (db : FactStore) (uid : Nat)
    (h : cacheConsistent st db) :
    (resolveAll b st db uid).1
      = (getUserPermissionsDb db uid, getUserRolesDb db uid, getUserDataScopeDb db uid) := by
  have h1 := getUserPermissionsAt_snd b st db uid h
  have h2 := getUserRolesAt_snd b (getUserPermissionsAt b st db uid).2 db uid h1
  unfold resolveAll
  simp only [Prod.mk.injEq]
  exact ⟨getUserPermissionsAt_fst b st db uid h,
    getUserRolesAt_fst b _ db uid h1,
    getUserDataScopeAt_fst b _ db uid h2⟩

theorem resolveAll_snd (b : Bool) (st : Cache) (db : FactStore) (uid : Nat)
    (h : cacheConsistent st db) :
    cacheConsistent (resolveAll b st db uid).2 db :=
  getUserDataScopeAt_snd b _ db uid
    (getUserRolesAt_snd b _ db uid
      (getUserPermissionsAt_snd b st db uid h))

/-- C10: starting from any cache whose entries are derivable from the
store, two successive resolutions of permissions, role codes and data
scope return identical triples whether either call hits the cache or
bypasses it (`cacheUp = false` covers cache-down / entry-expired), both
equal to the store-backed values; and the serialized forms written to
the cache (JSON list of codes, decimal string for the scope)
deserialize back to exactly the store-backed values. -/
theorem c10_resolution_idempotent (b1 b2 : Bool) (st : Cache) (db : FactStore) (uid : Nat)
    (h : cacheConsistent st db) :
    (resolveAll b2 (resolveAll b1 st db uid).2 db uid).1 = (resolveAll b1 st db uid).1 ∧
    (resolveAll b1 st db uid).1
      = (getUserPermissionsDb db uid, getUserRolesDb db uid, getUserDataScopeDb db uid) ∧
    deserializeCodes (serializeCodes (getUserPermissionsRows db uid))
      = getUserPermissionsDb db uid ∧
    deserializeCodes (serializeCodes (getUserRolesRows db uid)) = getUserRolesDb db uid ∧
    parseDecimal (serializeScope (getUserDataScopeDb db uid))
      = some (getUserDataScopeDb db uid) := by
  have hpost := resolveAll_snd b1 st db uid h
  refine ⟨?_, resolveAll_fst b1 st db uid h,
    by rw [deserializeCodes_serializeCodes, ← getUserPermissionsDb_eq_rows],
    by rw [deserializeCodes_serializeCodes]; rfl,
    parseDecimal_serializeScope_of_lt _ (getUserDataScopeDb_lt_ten db uid)⟩
  rw [resolveAll_fst b2 _ db uid hpost, resolveAll_fst b1 st db uid h]

/-- Witness for C10 at a concrete input: the empty cache is consistent
with `dbDeptAll`, and a cached second resolution agrees with a
cache-bypassing first resolution. -/
theorem c10_resolution_idempotent_witness :
    cacheConsistent emptyCache dbDeptAll ∧
    (resolveAll false (resolveAll true emptyCache dbDeptAll 1).2 dbDeptAll 1).1
      = (resolveAll true emptyCache dbDeptAll 1).1 :=
  have hc : cacheConsistent emptyCache dbDeptAll :=
    ⟨fun _ _ hx => by simp [emptyCache] at hx,
     fun _ _ hx => by simp [emptyCache] at hx,
     fun _ _ hx => by simp [emptyCache] at hx⟩
  ⟨hc, (c10_resolution_idempotent true false emptyCache dbDeptAll 1 hc).1⟩

/-! ### C1: the user-update flow revokes roles without invalidating
the permission cache

`UserService.update_user` (`app/services/user_service.py`) handles a
`role_ids` payload by `delete(UserRole).where(UserRole.user_id ==
user_id)` followed by inserting one `UserRole` row per new role id.
Neither the service nor its API caller invokes
`clear_user_permission_cache` / `PermissionCache.clear_all_user_cache`
(the helper exists in `app/core/permissions.py` but has no callers in
the repository), so the cache is left untouched by the mutation. -/

/-- The role-replacement step of `UserService.update_user`. -/
def updateUserRoles (db : FactStore) (uid : Nat) (roleIds : List Nat) : FactStore :=
  { db with userRoles :=
      (db.userRoles.filter (fun ur => ur.user_id != uid)) ++
        roleIds.map (fun rid => ⟨uid, rid⟩) }

/-- Store for the revocation scenario: user 1 holds the active role 10
whose only permission is the enabled ACTION code `user:delete`. -/
def dbRevoke : FactStore :=
  ⟨[⟨10, "ops", 1, false, .self⟩],
   [⟨100, "user:delete", 1, false, 2, none⟩],
   [⟨1, 10⟩], [⟨10, 100⟩], [], []⟩

/-- C1 (code bug): resolve permissions once (populating the cache),
replace the user's role list by `[]` through the user-update flow, and
resolve again within the TTL: the second resolution still returns the
revoked role's permission code from the cache, although the
store-backed value is already the empty set. -/
theorem c1_revoked_role_codes_survive_in_cache :
    (getUserPermissionsAt true
        (getUserPermissionsAt true emptyCache dbRevoke 1).2
        (updateUserRoles dbRevoke 1 []) 1).1 = {"user:delete"} ∧
    getUserPermissionsDb (updateUserRoles dbRevoke 1 []) 1 = ∅ := by
  refine ⟨by decide, by decide⟩

/-! ### Hierarchy walker
(`DepartmentService.get_sub_departments` in
`app/services/department_service.py`)

The Python function recurses with no fuel, no visited set and no depth
bound: it selects the non-deleted children of the current department
and recurses into each. The embedding adds an explicit fuel parameter;
`none` means the recursion exceeded the fuel bound, and a result that
is `none` for *every* fuel renders non-termination of the source
recursion. -/

mutual

/-- `get_sub_departments(db, dept_id, include_self)`. -/
def getSubDepartmentsFuel (db : FactStore) (fuel : Nat) (deptId : Nat)
    (includeSelf : Bool) : Option (List Nat) :=
  match fuel with
  | 0 => none
  | fuel' + 1 =>
    match getSubDepartmentsList db fuel'
        ((db.departments.filter (fun d =>
          d.parent_id == some deptId && d.is_deleted == false)).map Department.id) with
    | none => none
    | some subs => some ((if includeSelf then [deptId] else []) ++ subs)
termination_by (fuel, 0)

/-- The `for child_id in child_ids` loop: recurse into each child with
`include_self=True` and concatenate (`dept_ids.extend(sub_ids)`). -/
def getSubDepartmentsList (db : FactStore) (fuel : Nat) (cs : List Nat) :
    Option (List Nat) :=
  match cs with
  | [] => some []
  | c :: cs' =>
    match getSubDepartmentsFuel db fuel c true, getSubDepartmentsList db fuel cs' with
    | some l1, some l2 => some (l1 ++ l2)
    | _, _ => none
termination_by (fuel, cs.length + 1)

end

/-- A department snapshot violating acyclicity: 1's parent is 2 and
2's parent is 1 (such a state is reachable because
`update_department` only rejects `parent_id == dept_id`, see C6). -/
def dbCyclicDepts : FactStore :=
  ⟨[], [], [], [], [], [⟨1, some 2, false⟩, ⟨2, some 1, false⟩]⟩

theorem cyclic_walk_aux (fuel : Nat) :
    getSubDepartmentsFuel dbCyclicDepts fuel 1 true = none ∧
    getSubDepartmentsFuel dbCyclicDepts fuel 2 true = none := by
  induction fuel with
  | zero => constructor <;> rw [getSubDepartmentsFuel]
  | succ n ih =>
    have h1 : ((dbCyclicDepts.departments.filter (fun d =>
        d.parent_id == some 1 && d.is_deleted == false)).map Department.id) = [2] := by
      decide
    have h2 : ((dbCyclicDepts.departments.filter (fun d =>
        d.parent_id == some 2 && d.is_deleted == false)).map Department.id) = [1] := by
      decide
    constructor
    · rw [getSubDepartmentsFuel, h1, getSubDepartmentsList, ih.2]
    · rw [getSubDepartmentsFuel, h2, getSubDepartmentsList, ih.1]

/-- C9 (code bug): on the two-department cycle the walker exceeds any
fuel bound whatsoever — the source recursion, which carries no visited
set and no depth bound, never returns. The spec requires the walker
not to infinite-loop even when the acyclicity assumption is violated
(and recommends a visited-set guard, which the code does not have). -/
theorem c9_walker_diverges_on_cyclic_snapshot (fuel : Nat) (includeSelf : Bool) :
    getSubDepartmentsFuel dbCyclicDepts fuel 1 includeSelf = none := by
  cases fuel with
  | zero => rw [getSubDepartmentsFuel]
  | succ n =>
    have h1 : ((dbCyclicDepts.departments.filter (fun d =>
        d.parent_id == some 1 && d.is_deleted == false)).map Department.id) = [2] := by
      decide
    rw [getSubDepartmentsFuel, h1, getSubDepartmentsList, (cyclic_walk_aux n).2]

/-! ### Data-scope row filter
(`apply_data_scope_filter` in `app/core/permissions.py`)

The value returned by the source is the input query with at most one
`where` clause appended; the appended clause is modelled as a
`QueryFilter` value (`noFilter` = query returned unchanged). The
`hasattr(model, 'dept_id')` test on the target entity becomes the
boolean `modelHasDeptId`. The DEPT_AND_SUB branch invokes the fuelled
hierarchy walker, so the function returns `none` exactly when that
recursion exceeds the fuel. -/

inductive QueryFilter where
  | noFilter
  | ownership (userId : Nat)
  | deptEq (deptId : Nat)
  | deptIn (deptIds : List Nat)
  | deptMem (deptIds : Finset Nat)
  | matchNothing
deriving DecidableEq

/-- The single `(Role.id, Role.data_scope) ⋈ UserRole` query of
`apply_data_scope_filter` over the user's active roles. -/
def rolesDataJoin (db : FactStore) (uid : Nat) : List (Nat × Nat) :=
  (db.userRoles.filter (fun ur => ur.user_id == uid)).flatMap
    (fun ur => (db.roles.filter (fun r => r.id == ur.role_id && roleActive r)).map
      (fun r => (r.id, r.data_scope.toNat)))

/-- `[row[0] for row in roles_data if row[1] == DataScope.CUSTOM.value]`. -/
def customRoleIds (rolesData : List (Nat × Nat)) : List Nat :=
  (rolesData.filter (fun rd => rd.2 == 5)).map Prod.fst

/-- `{row[0] for row in select RoleDepartment.department_id where
role_id in custom_role_ids}`. -/
def customDeptIds (db : FactStore) (rids : List Nat) : Finset Nat :=
  ((db.roleDepartments.filter (fun rd => rids.contains rd.role_id)).map
    RoleDepartment.department_id).toFinset

/-- `apply_data_scope_filter(db, query, user, model, user_field)`. -/
def applyDataScopeFilter (walkerFuel : Nat) (db : FactStore) (user : UserRec)
    (modelHasDeptId : Bool) : Option QueryFilter :=
  if user.user_type == 0 then some .noFilter
  else
    let roles_data := rolesDataJoin db user.id
    if roles_data.isEmpty then some (.ownership user.id)
    else
      let scope := ((roles_data.map Prod.snd).minimum).untop' 4
      if scope == 1 then some .noFilter
      else if scope == 4 then some (.ownership user.id)
      else if scope == 2 then
        if modelHasDeptId then some (.deptEq user.dept_id)
        else some (.ownership user.id)
      else if scope == 3 then
        if modelHasDeptId then
          match getSubDepartmentsFuel db walkerFuel user.dept_id true with
          | none => none
          | some ids => some (.deptIn (ids ++ [user.dept_id]))
        else some (.ownership user.id)
      else if scope == 5 then
        let cdepts := customDeptIds db (customRoleIds roles_data)
        if modelHasDeptId then
          if cdepts = ∅ then some .matchNothing
          else some (.deptMem cdepts)
        else some (.ownership user.id)
      else some .noFilter

/-! ### Permission guard
(`require_permissions` in `app/core/permissions.py`)

The decorator's wrapper is embedded as its decision function: the
outcome given the (possibly missing) current user, the presence of the
db session, and — only consulted on the non-superadmin path — the
resolved permission set. -/

inductive GuardResult where
  | unauthorized
  | serverError
  | forbidden
  | allowed
deriving DecidableEq, Repr

/-- Decision logic of the `require_permissions(*permission_codes)`
wrapper: 401 without a current user; superadmin (`user_type == 0`)
passes through before any session or permission lookup; 500 without a
db session; 403 iff `set(permission_codes) - user_permissions` is
non-empty. -/
def requirePermissionsCheck (permissionCodes : List String) (currentUser : Option UserRec)
    (dbPresent : Bool) (userPermissions : Finset String) : GuardResult :=
  match currentUser with
  | none => .unauthorized
  | some u =>
    if u.user_type == 0 then .allowed
    else if !dbPresent then .serverError
    else if permissionCodes.toFinset \ userPermissions ≠ ∅ then .forbidden
    else .allowed

/-- C5: for a superadmin (`user_type = 0`) the guard allows whatever
the permission set, the required codes and the session state are (no
lookup can influence the outcome), and `apply_data_scope_filter`
returns the query unfiltered whatever the fact store holds — including
a store with zero role assignments. -/
theorem c5_superadmin_bypass (codes : List String) (u : UserRec) (dbPresent : Bool)
    (resolved : Finset String) (fuel : Nat) (db : FactStore) (hasDept : Bool)
    (h : u.user_type = 0) :
    requirePermissionsCheck codes (some u) dbPresent resolved = .allowed ∧
    applyDataScopeFilter fuel db u hasDept = some .noFilter := by
  constructor
  · simp [requirePermissionsCheck, h]
  · simp [applyDataScopeFilter, h]

/-- Witness for C5: a superadmin with zero role assignments. -/
theorem c5_superadmin_bypass_witness :
    (⟨1, 0, 0⟩ : UserRec).user_type = 0 ∧
    requirePermissionsCheck ["user:list"] (some ⟨1, 0, 0⟩) false {"x"}
      = GuardResult.allowed ∧
    applyDataScopeFilter 0 dbNoRoles ⟨1, 0, 0⟩ true = some QueryFilter.noFilter :=
  have h := c5_superadmin_bypass ["user:list"] ⟨1, 0, 0⟩ false {"x"} 0 dbNoRoles true rfl
  ⟨rfl, h.1, h.2⟩

/-! ### C4: CUSTOM scope with an empty grant set -/

/-- User 7's only (active) role has scope CUSTOM and there are no
`RoleDepartment` grant rows. -/
def dbCustomNoGrants : FactStore :=
  ⟨[⟨20, "custom", 1, false, .custom⟩], [], [⟨7, 20⟩], [], [], []⟩

/-- C4 counterexample: for a target model *without* a `dept_id`
attribute, the CUSTOM-with-empty-grants branch returns the SELF-style
ownership filter (`created_by == user.id`), not the match-nothing
filter the claim requires for every such user. -/
theorem c4_counterexample_no_dept_attr_falls_back_to_self :
    applyDataScopeFilter 0 dbCustomNoGrants ⟨7, 2, 3⟩ false
      = some (QueryFilter.ownership 7) ∧
    some (QueryFilter.ownership 7) ≠ some QueryFilter.matchNothing := by
  refine ⟨by decide, by decide⟩

/-- C4 as amended: for a non-superadmin user whose active-role join is
non-empty with minimal scope CUSTOM (5) and whose CUSTOM-scoped roles
have zero `RoleDepartment` grants, `apply_data_scope_filter` on a
model that *has* a `dept_id` attribute returns the match-nothing
filter (`where 1 == 0`) as an ordinary value — not an unfiltered
query, not an ownership fallback, and not an error. -/
theorem c4_custom_empty_grants_match_nothing (fuel : Nat) (db : FactStore) (u : UserRec)
    (h0 : u.user_type ≠ 0)
    (h1 : (rolesDataJoin db u.id).isEmpty = false)
    (h2 : ((rolesDataJoin db u.id).map Prod.snd).minimum.untop' 4 = 5)
    (h3 : customDeptIds db (customRoleIds (rolesDataJoin db u.id)) = ∅) :
    applyDataScopeFilter fuel db u true = some QueryFilter.matchNothing := by
  have hu : (u.user_type == 0) = false := by simpa using h0
  simp [applyDataScopeFilter, hu, h1, h2, h3]

/-- Witness for C4's amended statement at the concrete store. -/
theorem c4_custom_empty_grants_match_nothing_witness :
    (⟨7, 2, 3⟩ : UserRec).user_type ≠ 0 ∧
    (rolesDataJoin dbCustomNoGrants 7).isEmpty = false ∧
    ((rolesDataJoin dbCustomNoGrants 7).map Prod.snd).minimum.untop' 4 = 5 ∧
    customDeptIds dbCustomNoGrants (customRoleIds (rolesDataJoin dbCustomNoGrants 7)) = ∅ ∧
    applyDataScopeFilter 0 dbCustomNoGrants ⟨7, 2, 3⟩ true
      = some QueryFilter.matchNothing :=
  ⟨by decide, by decide, by decide, by decide,
   c4_custom_empty_grants_match_nothing 0 dbCustomNoGrants ⟨7, 2, 3⟩
     (by decide) (by decide) (by decide) (by decide)⟩

/-! ### Cycle validator
(`MenuService.check_circular_reference` in `app/services/menu_service.py`) -/

/-- `MenuService.get_menu_by_id`: the non-deleted menu with the id. -/
def getMenuById (menus : List Menu) (menuId : Nat) : Option Menu :=
  menus.find? (fun m => m.id == menuId && m.is_deleted == false)

/-- The `while current_id and current_id != 0` loop of
`check_circular_reference` (`true` = safe to update): return `False`
if the current node was already visited (corrupted-data guard) or is
the node being re-parented; otherwise follow the parent pointer; a
missing menu breaks the loop with `True`. The fuel only bounds the
recursion for Lean's sake — `checkCircularWalk_isSome_aux` shows the
visited set prevents exhaustion from the entry point. -/
def checkCircularWalk (menus : List Menu) (menuId : Nat) :
    Nat → Option Nat → List Nat → Option Bool
  | _, none, _ => some true
  | _, some 0, _ => some true
  | 0, some (_ + 1), _ => none
  | fuel + 1, some (k + 1), visited =>
    if visited.contains (k + 1) then some false
    else if (k + 1) == menuId then some false
    else
      match getMenuById menus (k + 1) with
      | none => some true
      | some m => checkCircularWalk menus menuId fuel m.parent_id ((k + 1) :: visited)

/-- `check_circular_reference(db, menu_id, new_parent_id)`: `True`
(safe) for a null/0 parent, `False` when the menu would become its own
parent, else walk the proposed parent's ancestor chain. -/
def checkCircularReference (menus : List Menu) (menuId : Nat)
    (newParentId : Option Nat) : Option Bool :=
  match newParentId with
  | none => some true
  | some p =>
    if p == 0 then some true
    else if menuId == p then some false
    else checkCircularWalk menus menuId (menus.length + 2) (some p) []

/-- The candidate values the walk's cursor can take after the first
step: the distinct parent ids stored in the snapshot. -/
def menuParentCands (menus : List Menu) : List Nat :=
  (menus.filterMap Menu.parent_id).dedup

theorem mem_menuParentCands {menus : List Menu} {m : Menu} {c : Nat}
    (hm : m ∈ menus) (hp : m.parent_id = some c) : c ∈ menuParentCands menus := by
  simp only [menuParentCands, List.mem_dedup, List.mem_filterMap]
  exact ⟨m, hm, hp⟩

theorem menuParentCands_length_le (menus : List Menu) :
    (menuParentCands menus).length ≤ menus.length :=
  le_trans ((menus.filterMap Menu.parent_id).dedup_sublist.length_le)
    (List.length_filterMap_le _ _)

theorem checkCircularWalk_isSome_aux (menus : List Menu) (menuId : Nat) :
    ∀ (fuel : Nat) (k : Nat) (visited : List Nat),
      (k + 1) ∈ menuParentCands menus →
      ((menuParentCands menus).filter (fun x => !visited.contains x)).length < fuel →
      (checkCircularWalk menus menuId fuel (some (k + 1)) visited).isSome := by
  intro fuel
  induction fuel with
  | zero => intro k visited _ h; exact absurd h (Nat.not_lt_zero _)
  | succ n ih =>
    intro k visited hk hlt
    rw [checkCircularWalk]
    cases hv : visited.contains (k + 1) with
    | true => simp [hv]
    | false =>
      cases hmn : ((k + 1) == menuId) with
      | true => simp [hv, hmn]
      | false =>
        simp only [hv, hmn, Bool.false_eq_true, if_false]
        cases hfind : getMenuById menus (k + 1) with
        | none => simp
        | some m =>
          simp only []
          cases hmp : m.parent_id with
          | none => rw [checkCircularWalk]; rfl
          | some c' =>
            cases c' with
            | zero => rw [checkCircularWalk]; rfl
            | succ k' =>
              apply ih
              · exact mem_menuParentCands (List.mem_of_find?_eq_some hfind) hmp
              · have hcmem : (k + 1) ∈
                    (menuParentCands menus).filter (fun x => !visited.contains x) := by
                  rw [List.mem_filter]
                  refine ⟨hk, ?_⟩
                  simpa using hv
                have heq : (menuParentCands menus).filter
                      (fun x => !((k + 1) :: visited).contains x)
                    = ((menuParentCands menus).filter
                        (fun x => !visited.contains x)).filter
                        (fun x => !(x == k + 1)) := by
                  rw [List.filter_filter]
                  apply List.filter_congr
                  intro x _
                  simp only [List.contains_cons, Bool.not_or]
                have hlt2 : ((menuParentCands menus).filter
                      (fun x => !((k + 1) :: visited).contains x)).length
                    < ((menuParentCands menus).filter
                        (fun x => !visited.contains x)).length := by
                  rw [heq]
                  exact List.length_filter_lt_length_iff_exists.mpr
                    ⟨k + 1, hcmem, by simp⟩
                omega

theorem checkCircularReference_isSome (menus : List Menu) (menuId : Nat)
    (q : Option Nat) : (checkCircularReference menus menuId q).isSome := by
  cases q with
  | none => rfl
  | some p =>
    rw [checkCircularReference]
    cases hp0 : (p == 0) with
    | true => simp
    | false =>
      cases hmp : (menuId == p) with
      | true => simp [hmp]
      | false =>
        simp only [hp0, hmp, Bool.false_eq_true, if_false]
        obtain ⟨k, rfl⟩ : ∃ k, p = k + 1 := by
          cases p with
          | zero => simp at hp0
          | succ k => exact ⟨k, rfl⟩
        by_cases hk : (k + 1) ∈ menuParentCands menus
        · apply checkCircularWalk_isSome_aux
          · exact hk
          · calc ((menuParentCands menus).filter
                  (fun x => !([] : List Nat).contains x)).length
                ≤ (menuParentCands menus).length := List.length_filter_le _ _
              _ ≤ menus.length := menuParentCands_length_le menus
              _ < menus.length + 2 := by omega
        · rw [checkCircularWalk]
          simp only [List.contains_nil, Bool.false_eq_true, if_false]
          cases hmn : ((k + 1) == menuId) with
          | true => simp
          | false =>
            simp only [Bool.false_eq_true, if_false]
            cases hfind : getMenuById menus (k + 1) with
            | none => simp
            | some m =>
              simp only []
              cases hpar : m.parent_id with
              | none => rw [checkCircularWalk]; rfl
              | some c' =>
                cases c' with
                | zero => rw [checkCircularWalk]; rfl
                | succ k' =>
                  apply checkCircularWalk_isSome_aux
                  · exact mem_menuParentCands (List.mem_of_find?_eq_some hfind) hpar
                  · calc ((menuParentCands menus).filter
                          (fun x => !((k + 1) :: []).contains x)).length
                        ≤ (menuParentCands menus).length := List.length_filter_le _ _
                      _ ≤ menus.length := menuParentCands_length_le menus
                      _ < menus.length + 1 := by omega

/-- The chain A→B→C of the spec's cycle-rejection property:
menu 1 (A) is a root, menu 2 (B) has parent 1, menu 3 (C) has
parent 2. -/
def chainMenus : List Menu :=
  [⟨1, none, false⟩, ⟨2, some 1, false⟩, ⟨3, some 2, false⟩]

/-- A corrupted snapshot with a pre-existing parent cycle 2 ⇄ 3. -/
def corruptMenus : List Menu :=
  [⟨2, some 3, false⟩, ⟨3, some 2, false⟩]

/-- C7: the cycle validator (i) rejects re-parenting a node onto
itself for every snapshot and every non-root proposed parent,
(ii) accepts a null proposed parent for every snapshot, (iii) always
reaches a verdict (the visited set bounds the walk even on corrupted
data); and on the chain A→B→C it rejects setting A's parent to C via
the node-encounter check, accepts a null parent for A, accepts setting
C's parent under A's root, and on a corrupted snapshot with a
pre-existing 2 ⇄ 3 cycle it rejects via the repeated-ancestor guard. -/
theorem c7_would_cycle_validator :
    (∀ (menus : List Menu) (p : Nat), p ≠ 0 →
      checkCircularReference menus p (some p) = some false) ∧
    (∀ (menus : List Menu) (nodeId : Nat),
      checkCircularReference menus nodeId none = some true) ∧
    (∀ (menus : List Menu) (nodeId : Nat) (q : Option Nat),
      (checkCircularReference menus nodeId q).isSome) ∧
    checkCircularReference chainMenus 1 (some 3) = some false ∧
    checkCircularReference chainMenus 1 none = some true ∧
    checkCircularReference chainMenus 3 (some 1) = some true ∧
    checkCircularReference corruptMenus 5 (some 2) = some false := by
  refine ⟨?_, ?_, checkCircularReference_isSome, by decide, by decide, by decide, by decide⟩
  · intro menus p hp
    rw [checkCircularReference]
    have hp0 : (p == 0) = false := by simpa using hp
    simp [hp0]
  · intro menus nodeId
    rfl

/-- Witness for C7's hypothesis-bearing component at a concrete
input: re-parenting menu 3 onto itself is rejected. -/
theorem c7_would_cycle_validator_witness :
    (3 : Nat) ≠ 0 ∧ checkCircularReference chainMenus 3 (some 3) = some false :=
  ⟨by decide, c7_would_cycle_validator.1 chainMenus 3 (by decide)⟩

/-! ### C6: parent-pointer update flows

`MenuService.update_menu` calls `check_circular_reference` before
persisting a `parent_id` change, but `PermissionService.
update_permission` applies the payload's `parent_id` with *no* cycle
check at all, and `DepartmentService.update_department` only rejects
`parent_id == dept_id` (plus a parent-existence check) — it never
walks the ancestor chain. -/

/-- Generic parent adjacency (id, parent_id) extracted from a table. -/
def permAdjacency (perms : List Permission) : List (Nat × Option Nat) :=
  perms.map (fun p => (p.id, p.parent_id))

/-- Parent adjacency of a department snapshot. -/
def deptAdjacency (depts : List Department) : List (Nat × Option Nat) :=
  depts.map (fun d => (d.id, d.parent_id))

/-- Whether `target` occurs on the parent chain starting at `start`,
within `fuel` steps. -/
def ancestorWithin (adj : List (Nat × Option Nat)) :
    Nat → Option Nat → Nat → Bool
  | 0, _, _ => false
  | _, none, _ => false
  | fuel + 1, some c, target =>
    if c == 0 then false
    else if c == target then true
    else
      match adj.find? (fun e => e.1 == c) with
      | none => false
      | some e => ancestorWithin adj fuel e.2 target

/-- A node is its own ancestor: its id occurs on its own parent chain
(chains longer than the node count must revisit a node, so the fuel
`adj.length + 1` is exhaustive). -/
def isOwnAncestor (adj : List (Nat × Option Nat)) (nodeId : Nat) : Bool :=
  match adj.find? (fun e => e.1 == nodeId) with
  | none => false
  | some e => ancestorWithin adj (adj.length + 1) e.2 nodeId

/-- `PermissionService.update_permission` restricted to a `parent_id`
payload: select the non-deleted permission, `setattr` the new parent,
flush. No cycle validation of any kind appears in the source. -/
def updatePermissionParent (perms : List Permission) (permId : Nat)
    (newParent : Option Nat) : Option (List Permission) :=
  if perms.any (fun p => p.id == permId && p.is_deleted == false) then
    some (perms.map (fun p =>
      if p.id == permId && p.is_deleted == false then
        { p with parent_id := newParent }
      else p))
  else none

/-- `DepartmentService.update_department` restricted to a truthy
`parent_id` payload: reject a missing department, reject
`parent_id == dept_id` ("Department cannot be its own parent"),
reject a missing parent; otherwise persist. No ancestor-chain check. -/
def updateDepartmentParent (depts : List Department) (deptId : Nat)
    (newParent : Nat) : Except String (List Department) :=
  if !(depts.any (fun d => d.id == deptId && d.is_deleted == false)) then
    Except.error "department not found"
  else if newParent == deptId then
    Except.error "Department cannot be its own parent"
  else if !(depts.any (fun d => d.id == newParent && d.is_deleted == false)) then
    Except.error "Parent department not found"
  else
    Except.ok (depts.map (fun d =>
      if d.id == deptId && d.is_deleted == false then
        { d with parent_id := some newParent }
      else d))

/-- Permissions 1 (root) and 2 (child of 1). -/
def permsChain : List Permission :=
  [⟨1, "grpA", 1, false, 1, none⟩, ⟨2, "grpB", 1, false, 1, some 1⟩]

/-- `permsChain` after re-parenting 1 under 2. -/
def permsChainCycled : List Permission :=
  [⟨1, "grpA", 1, false, 1, some 2⟩, ⟨2, "grpB", 1, false, 1, some 1⟩]

/-- Departments 1 (root) and 2 (child of 1). -/
def deptsChain : List Department :=
  [⟨1, none, false⟩, ⟨2, some 1, false⟩]

/-- `deptsChain` after re-parenting 1 under 2. -/
def deptsChainCycled : List Department :=
  [⟨1, some 2, false⟩, ⟨2, some 1, false⟩]

/-- C6 (code bug): re-parenting permission 1 under its own child 2 is
accepted by `update_permission` (no cycle check is invoked anywhere in
that flow), and re-parenting department 1 under its child 2 passes
`update_department`'s only guard (`parent_id == dept_id`); both
accepted writes leave a node that is its own ancestor, violating the
claimed invariant. -/
theorem c6_parent_updates_can_create_cycles :
    updatePermissionParent permsChain 1 (some 2) = some permsChainCycled ∧
    isOwnAncestor (permAdjacency permsChainCycled) 1 = true ∧
    updateDepartmentParent deptsChain 1 2 = Except.ok deptsChainCycled ∧
    isOwnAncestor (deptAdjacency deptsChainCycled) 1 = true := by
  exact ⟨rfl, by decide, rfl, by decide⟩

/-! ### Tree builders
(`MenuService.build_menu_tree` and
`PermissionService.build_permission_tree`)

Both builders index the flat input by id, then iterate once: a node
with `parent_id` None/0 is appended to the root list; any other node
is appended to `dict.get(parent_id).children` when that lookup
succeeds. They differ on a failed lookup (an orphan): the permission
builder's `else` branch appends the orphan to the root list, while the
menu builder has *no* `else` branch, so the orphan is attached
nowhere. The imperative construction over shared mutable node objects
is rendered by computing, for each root, the forest reachable through
the attachment relation (fuel `nodes.length` bounds the depth, which
suffices for every root-reachable path). -/

/-- The id/parent projection of a flat input node. -/
structure FlatNode where
  id : Nat
  parent_id : Option Nat
deriving DecidableEq, Repr

/-- An output tree node: the id and the accumulated `children`. -/
inductive TreeNode where
  | node (id : Nat) (children : List TreeNode)

/-- The id of an output tree node. -/
def TreeNode.id : TreeNode → Nat
  | .node i _ => i

mutual

/-- The children attached to `pid`: the input nodes whose `parent_id`
is `pid`, in input order, each carrying its own children. -/
def buildChildren (nodes : List FlatNode) (fuel : Nat) (pid : Nat) : List TreeNode :=
  match fuel with
  | 0 => []
  | fuel' + 1 =>
    buildForest nodes fuel' (nodes.filter (fun n => n.parent_id == some pid))
termination_by (fuel, 0)

/-- Build one tree per node of `l`. -/
def buildForest (nodes : List FlatNode) (fuel : Nat) (l : List FlatNode) : List TreeNode :=
  match l with
  | [] => []
  | n :: rest =>
    TreeNode.node n.id (buildChildren nodes fuel n.id) :: buildForest nodes fuel rest
termination_by (fuel, l.length + 1)

end

/-- `parent_id is None or parent_id == 0`. -/
def isRootFlat (n : FlatNode) : Bool :=
  n.parent_id == none || n.parent_id == some 0

/-- An orphan: a non-root `parent_id` referencing an id absent from
the input set. -/
def isOrphan (nodes : List FlatNode) (n : FlatNode) : Bool :=
  match n.parent_id with
  | none => false
  | some p => !(p == 0) && !(nodes.any (fun m => m.id == p))

/-- `MenuService.build_menu_tree`: roots are exactly the None/0-parent
nodes; orphans are attached nowhere. -/
def buildMenuTree (menus : List Menu) : List TreeNode :=
  let nodes := menus.map (fun m => FlatNode.mk m.id m.parent_id)
  (nodes.filter isRootFlat).map
    (fun n => TreeNode.node n.id (buildChildren nodes nodes.length n.id))

/-- `PermissionService.build_permission_tree`: roots are the None/0
parent nodes *and* the orphans ("Parent not found, treat as root"),
in input order. -/
def buildPermissionTree (perms : List Permission) : List TreeNode :=
  let nodes := perms.map (fun p => FlatNode.mk p.id p.parent_id)
  (nodes.filter (fun n => isRootFlat n || isOrphan nodes n)).map
    (fun n => TreeNode.node n.id (buildChildren nodes nodes.length n.id))

/-- A single menu whose `parent_id` (99) does not exist. -/
def orphanMenu : List Menu := [⟨1, some 99, false⟩]

/-- C8 counterexample: the menu tree builder drops the orphan node 1
entirely — the output is empty, the orphan does not appear as a root,
contradicting the claim for the menu builder. -/
theorem c8_counterexample_menu_orphan_dropped :
    buildMenuTree orphanMenu = [] ∧
    isOrphan (orphanMenu.map (fun m => FlatNode.mk m.id m.parent_id))
      ⟨1, some 99⟩ = true := by
  exact ⟨rfl, by decide⟩

/-- C8 as amended: the permission tree builder turns every orphan of
the input into a root of the output, while the menu tree builder's
roots are exactly the nodes with a None/0 `parent_id` — a menu orphan
never appears as a root (it is dropped from the output tree). -/
theorem c8_orphan_root_behavior :
    (∀ (perms : List Permission) (p : Permission), p ∈ perms →
      isOrphan (perms.map (fun q => FlatNode.mk q.id q.parent_id))
        ⟨p.id, p.parent_id⟩ = true →
      ∃ t ∈ buildPermissionTree perms, TreeNode.id t = p.id) ∧
    (∀ (menus : List Menu),
      (buildMenuTree menus).map TreeNode.id
        = ((menus.map (fun m => FlatNode.mk m.id m.parent_id)).filter
            isRootFlat).map FlatNode.id) := by
  constructor
  · intro perms p hp horph
    refine ⟨TreeNode.node p.id (buildChildren
        (perms.map (fun q => FlatNode.mk q.id q.parent_id))
        (perms.map (fun q => FlatNode.mk q.id q.parent_id)).length p.id), ?_, rfl⟩
    simp only [buildPermissionTree, List.mem_map]
    refine ⟨⟨p.id, p.parent_id⟩, ?_, rfl⟩
    rw [List.mem_filter]
    constructor
    · exact List.mem_map.mpr ⟨p, hp, rfl⟩
    · rw [horph, Bool.or_true]
  · intro menus
    simp only [buildMenuTree, List.map_map]
    rfl

/-- A permission whose `parent_id` (99) does not exist. -/
def orphanPerm : List Permission := [⟨1, "p:x", 1, false, 1, some 99⟩]

/-- Witness for C8's amended statement: the orphan permission appears
as a root of the permission tree. -/
theorem c8_orphan_root_behavior_witness :
    (⟨1, "p:x", 1, false, 1, some 99⟩ : Permission) ∈ orphanPerm ∧
    isOrphan (orphanPerm.map (fun q => FlatNode.mk q.id q.parent_id))
      ⟨1, some 99⟩ = true ∧
    ∃ t ∈ buildPermissionTree orphanPerm, TreeNode.id t = 1 :=
  ⟨by decide, by decide,
   c8_orphan_root_behavior.1 orphanPerm ⟨1, "p:x", 1, false, 1, some 99⟩
     (by decide) (by decide)⟩
